import Mathlib

/-!
Verification development for the qiskit-metal sweep/renderer/connector slice.

The Python modules under study are shallowly embedded below:

* `qiskit_metal/analyses/sweep_options/sweeping.py` — the `Sweeping` class:
  `error_check_sweep_input`, `prep_q3d_setup`, `prep_eigenmode_setup`,
  `get_quality_factor`, `sweep_one_option_get_capacitance_matrix`,
  `sweep_one_option_get_eigenmode_solution_data`.
* `qiskit_metal/objects/interconnects/Metal_cpw_connect.py` — the
  `check_connector_name` guard and the `make` geometry construction.
* `qiskit_metal/renderers/renderer_ansys/q3d_renderer.py` — the
  `q3d_options` default dictionary.

Modelling conventions: Python scalar values are the inductive `PyVal`
(`bool` is a separate constructor from `int`, mirroring Python's distinct
type, and `isinstance` checks are translated accordingly, with
`isinstance(_, int)` true on `bool` since `bool` subclasses `int`);
Python `dict`s are association lists in insertion order and assignment
updates an existing key in place or appends a new one; nested component
option dictionaries are the inductive `OptDict` whose leaves are scalar
option values (membership of a key in a scalar leaf is modelled as false);
calls into the external Ansys/pyEPR automation surface are recorded as
`SweepAction` trace events, and the values those external calls would
return are supplied by oracle functions passed as parameters.
-/

/-- Python scalar value: `None`, `bool`, `int`, `float` or `str`.  Float
payloads are rationals, which is adequate here because the embedded code
never computes with them, it only checks their type and moves them. -/
inductive PyVal where
  | none : PyVal
  | bool : Bool → PyVal
  | int : Int → PyVal
  | float : ℚ → PyVal
  | str : String → PyVal
deriving DecidableEq

/-- Python `isinstance(value, float)`: floats only (`int` and `bool` are not
`float` in Python). -/
def PyVal.isFloat : PyVal → Bool
  | .float _ => true
  | _ => false

/-- Python `isinstance(value, int)`: ints and bools (`bool` subclasses
`int` in Python). -/
def PyVal.isInt : PyVal → Bool
  | .int _ => true
  | .bool _ => true
  | _ => false

/-- Python `isinstance(value, bool)`. -/
def PyVal.isBool : PyVal → Bool
  | .bool _ => true
  | _ => false

/-- Python `isinstance(value, str)`. -/
def PyVal.isStr : PyVal → Bool
  | .str _ => true
  | _ => false

/-- Python `value is None`. -/
def PyVal.isNone : PyVal → Bool
  | .none => true
  | _ => false

/-- Python `value in [list of string literals]` for a scalar value. -/
def PyVal.inStrs : PyVal → List String → Bool
  | .str s, l => s ∈ l
  | _, _ => false

/-- Lookup of a key in a Python dict modelled as an association list
(first, and in well-formed dicts only, occurrence of the key). -/
def alookup {κ β : Type} [DecidableEq κ] : List (κ × β) → κ → Option β
  | [], _ => Option.none
  | (k, v) :: rest, key => if k = key then some v else alookup rest key

/-- Python dict assignment `d[k] = v`: replace the value at an existing key
in place, otherwise append the new entry, preserving insertion order. -/
def pySet {κ β : Type} [DecidableEq κ] : List (κ × β) → κ → β → List (κ × β)
  | [], k, v => [(k, v)]
  | (k0, v0) :: rest, k, v =>
      if k0 = k then (k, v) :: rest else (k0, v0) :: pySet rest k v

/-- Helper for `pySplit`: split a character list at every occurrence of the
separator character, keeping empty pieces, always yielding at least one
piece. -/
def splitOnChar (c : Char) : List Char → List (List Char)
  | [] => [[]]
  | x :: xs =>
      if x = c then [] :: splitOnChar c xs
      else
        match splitOnChar c xs with
        | [] => [[x]]
        | g :: gs => (x :: g) :: gs

/-- Python `s.split(sep)` for a one-character separator (as in
`option_name.split('.')`): split at every occurrence, keeping empty
pieces. -/
def pySplit (sep : Char) (s : String) : List String :=
  (splitOnChar sep s.data).map fun cs => String.mk cs

/-- Nested component-options value: either a scalar option value or a
string-keyed mapping (an `addict` Dict) of further option values. -/
inductive OptDict where
  | leaf : PyVal → OptDict
  | node : List (String × OptDict) → OptDict

/-- Key lookup in an options mapping; a scalar leaf has no keys. -/
def OptDict.get? : OptDict → String → Option OptDict
  | .leaf _, _ => Option.none
  | .node entries, k => alookup entries k

/-- Python `name in a_value` for an options mapping. -/
def OptDict.hasKey (d : OptDict) (k : String) : Bool :=
  (d.get? k).isSome

/-- Python `a_value[k] = v` on an options mapping (only ever used after a
successful `hasKey` check, so the leaf case is unreachable there). -/
def OptDict.setKey : OptDict → String → OptDict → OptDict
  | .leaf v, _, _ => .leaf v
  | .node entries, k, v => .node (pySet entries k v)

/-- Sweeping.option_value: `a_dict[search]` (only called after a successful
membership check, so the default never fires there). -/
def option_value (a_dict : OptDict) (search : String) : OptDict :=
  (a_dict.get? search).getD (.node [])

/-- Inner loop of Sweeping.error_check_sweep_input: walk the option path
through nested dictionaries, returning the mapping reached together with
status 0, or the mapping in which the first lookup failed together with
status 3. -/
def ecWalk : OptDict → List String → OptDict × Nat
  | a_value, [] => (a_value, 0)
  | a_value, name :: rest =>
      if a_value.hasKey name then ecWalk (option_value a_value name) rest
      else (a_value, 3)

/-- Sweeping.error_check_sweep_input.  The design's components are modelled
as the mapping from component name to that component's (nested) options
dictionary, i.e. `design.components[name].options`. -/
def error_check_sweep_input (components : List (String × OptDict))
    (qcomp_name option_name : String) (option_sweep : List PyVal) :
    Option (List String) × Option OptDict × Nat :=
  if option_sweep.length = 0 then (Option.none, Option.none, 4)
  else if option_name = "" then (Option.none, Option.none, 2)
  else
    let option_path := pySplit '.' option_name
    match alookup components qcomp_name with
    | Option.none => (some option_path, Option.none, 1)
    | some qcomp_options =>
        let walked := ecWalk qcomp_options option_path.dropLast
        (some option_path, some walked.1, walked.2)

/-- Specification-side traversal of a key list through nested option
mappings: `some` of the mapping reached when every key exists, `none`
otherwise. -/
def traverseKeys : OptDict → List String → Option OptDict
  | a, [] => some a
  | a, k :: rest =>
      if a.hasKey k then traverseKeys (option_value a k) rest else Option.none

theorem ecWalk_of_traverse_some (names : List String) :
    ∀ (a m : OptDict), traverseKeys a names = some m → ecWalk a names = (m, 0) := by
  induction names with
  | nil =>
      intro a m h
      simp [traverseKeys] at h
      simp [ecWalk, h]
  | cons k rest ih =>
      intro a m h
      by_cases hk : a.hasKey k
      · simp only [traverseKeys, hk, if_pos] at h
        simpa [ecWalk, hk] using ih _ _ h
      · simp [traverseKeys, hk] at h

theorem ecWalk_first_missing (pre : List String) :
    ∀ (a m : OptDict) (k : String) (suf : List String),
      traverseKeys a pre = some m → m.hasKey k = false →
      ecWalk a (pre ++ k :: suf) = (m, 3) := by
  induction pre with
  | nil =>
      intro a m k suf hpre hk
      simp [traverseKeys] at hpre
      subst hpre
      simp [ecWalk, hk]
  | cons p ps ih =>
      intro a m k suf hpre hk
      by_cases hp : a.hasKey p
      · simp only [traverseKeys, hp, if_pos] at hpre
        simpa [ecWalk, hp] using ih _ _ _ suf hpre hk
      · simp [traverseKeys, hp] at hpre

/-- C1: Sweeping.error_check_sweep_input classifies its input by the
enumerated status code: 4 (both results None) when the sweep list is empty
— this check precedes all others, so it also wins when the option name is
empty too; else 2 (path None) when the option name is empty; else, with
the path equal to the name split on '.', 1 (value None) when the component
is not registered; else it walks every path element but the last through
the nested options, giving 3 with the mapping reached so far at the first
missing intermediate key, and 0 with the mapping reached by the full
prefix when all intermediate keys exist. -/
theorem error_check_sweep_input_classified
    (components : List (String × OptDict)) (qcomp_name option_name : String)
    (option_sweep : List PyVal) :
    (option_sweep = [] →
      error_check_sweep_input components qcomp_name option_name option_sweep
        = (Option.none, Option.none, 4)) ∧
    (option_sweep ≠ [] → option_name = "" →
      error_check_sweep_input components qcomp_name option_name option_sweep
        = (Option.none, Option.none, 2)) ∧
    (option_sweep ≠ [] → option_name ≠ "" →
      alookup components qcomp_name = Option.none →
      error_check_sweep_input components qcomp_name option_name option_sweep
        = (some (pySplit '.' option_name), Option.none, 1)) ∧
    (∀ qcomp_options : OptDict, option_sweep ≠ [] → option_name ≠ "" →
      alookup components qcomp_name = some qcomp_options →
      (∀ m : OptDict,
        traverseKeys qcomp_options (pySplit '.' option_name).dropLast = some m →
        error_check_sweep_input components qcomp_name option_name option_sweep
          = (some (pySplit '.' option_name), some m, 0)) ∧
      (∀ (pre : List String) (k : String) (suf : List String) (m : OptDict),
        (pySplit '.' option_name).dropLast = pre ++ k :: suf →
        traverseKeys qcomp_options pre = some m → m.hasKey k = false →
        error_check_sweep_input components qcomp_name option_name option_sweep
          = (some (pySplit '.' option_name), some m, 3))) := by
  refine ⟨?_, ?_, ?_, ?_⟩
  · intro h
    subst h
    simp [error_check_sweep_input]
  · intro hs hn
    have hlen : option_sweep.length ≠ 0 := fun h => hs (List.length_eq_zero.mp h)
    simp [error_check_sweep_input, hlen, hn]
  · intro hs hn hq
    have hlen : option_sweep.length ≠ 0 := fun h => hs (List.length_eq_zero.mp h)
    simp [error_check_sweep_input, hlen, hn, hq]
  · intro qcomp_options hs hn hq
    have hlen : option_sweep.length ≠ 0 := fun h => hs (List.length_eq_zero.mp h)
    constructor
    · intro m hm
      have hw := ecWalk_of_traverse_some _ _ _ hm
      simp [error_check_sweep_input, hlen, hn, hq, hw]
    · intro pre k suf m hdecomp hpre hk
      have hw := ecWalk_first_missing pre _ _ k suf hpre hk
      simp [error_check_sweep_input, hlen, hn, hq, hdecomp, hw]

/-- Witness for C1: a concrete two-level options dictionary, exercising the
status-0 branch of the classification at a registered component with an
existing dotted path. -/
theorem error_check_sweep_input_classified_witness :
    error_check_sweep_input
        [("Q1", OptDict.node [("pad", OptDict.node
            [("width", OptDict.leaf (PyVal.str "10um"))])])]
        "Q1" "pad.width" [PyVal.str "5um"]
      = (some ["pad", "width"],
         some (OptDict.node [("width", OptDict.leaf (PyVal.str "10um"))]), 0) := by
  have h := error_check_sweep_input_classified
      [("Q1", OptDict.node [("pad", OptDict.node
          [("width", OptDict.leaf (PyVal.str "10um"))])])]
      "Q1" "pad.width" [PyVal.str "5um"]
  have h0 := (h.2.2.2 (OptDict.node [("pad", OptDict.node
      [("width", OptDict.leaf (PyVal.str "10um"))])])
      (by decide) (by decide) (by rfl)).1
      (OptDict.node [("width", OptDict.leaf (PyVal.str "10um"))])
  exact (by simpa using h0 (by rfl))

/-- Result of a prep-setup call: the integer status together with the
externally visible effects (the mutated `setup_args`, the name passed to
`delete_setup`, and the names of the setup added and activated, when
any). -/
structure PrepResult where
  status : Nat
  setup_args : List (String × PyVal)
  deleted_setup : Option String
  added_setup : Option String
  activated_setup : Option String

/-- Validation loop of Sweeping.prep_q3d_setup, translated clause for
clause in source order. -/
def q3dLoop : List (String × PyVal) → Nat
  | [] => 0
  | (key, value) :: rest =>
      if key = "name" then q3dLoop rest
      else if key = "freq_ghz" then
        if value.isFloat || value.isNone then q3dLoop rest else 1
      else if key = "max_passes" then
        if value.isInt || value.isNone then q3dLoop rest else 1
      else if key = "min_passes" then
        if value.isInt || value.isNone then q3dLoop rest else 1
      else if key = "percent_error" then
        if value.isFloat || value.isNone then q3dLoop rest else 1
      else if key = "save_fields" then
        if value.isBool || value.isNone then q3dLoop rest else 1
      else if key = "enabled" then
        if value.isBool || value.isNone then q3dLoop rest else 1
      else if key = "min_converged_passes" then
        if value.isInt || value.isNone then q3dLoop rest else 1
      else if key = "percent_refinement" then
        if value.isInt || value.isNone then q3dLoop rest else 1
      else if key = "auto_increase_solution_order" then
        if value.isBool || value.isNone then q3dLoop rest else 1
      else if key = "solution_order" then
        if (value.isStr && value.inStrs ["High", "Normal", "Higher", "Highest"])
            || value.isNone then q3dLoop rest else 1
      else if key = "solver_type" then
        if value.isStr || value.isNone then q3dLoop rest else 1
      else 2

/-- Sweeping.prep_q3d_setup: overwrite `setup_args.name` with
"Sweep_q3d_setup", call `delete_setup` for that name, then validate the
entries in order; on full success add and activate the setup. -/
def prep_q3d_setup (setup_args : List (String × PyVal)) : PrepResult :=
  let args := pySet setup_args "name" (PyVal.str "Sweep_q3d_setup")
  let st := q3dLoop args
  ⟨st, args, some "Sweep_q3d_setup",
    if st = 0 then some "Sweep_q3d_setup" else Option.none,
    if st = 0 then some "Sweep_q3d_setup" else Option.none⟩

/-- Validation loop of Sweeping.prep_eigenmode_setup, translated clause for
clause in source order. -/
def emLoop : List (String × PyVal) → Nat
  | [] => 0
  | (key, value) :: rest =>
      if key = "name" then emLoop rest
      else if key = "min_freq_ghz" then
        if value.isInt || value.isNone then emLoop rest else 1
      else if key = "n_modes" then
        if value.isInt || value.isNone then emLoop rest else 1
      else if key = "max_delta_f" then
        if value.isFloat || value.isNone then emLoop rest else 1
      else if key = "max_passes" then
        if value.isInt || value.isNone then emLoop rest else 1
      else if key = "min_passes" then
        if value.isInt || value.isNone then emLoop rest else 1
      else if key = "min_converged" then
        if value.isInt || value.isNone then emLoop rest else 1
      else if key = "basis_order" then
        if value.isInt || value.isNone then emLoop rest else 1
      else if key = "pct_refinement" then
        if value.isInt || value.isNone then emLoop rest else 1
      else 2

/-- Sweeping.prep_eigenmode_setup: overwrite `setup_args.name` with
"Sweep_em_setup", call `delete_setup` for that name, then validate the
entries in order; on full success add and activate the setup. -/
def prep_eigenmode_setup (setup_args : List (String × PyVal)) : PrepResult :=
  let args := pySet setup_args "name" (PyVal.str "Sweep_em_setup")
  let st := emLoop args
  ⟨st, args, some "Sweep_em_setup",
    if st = 0 then some "Sweep_em_setup" else Option.none,
    if st = 0 then some "Sweep_em_setup" else Option.none⟩

/-- The allow-list of validated prep_q3d_setup keys (besides 'name'). -/
def q3dSetupKeys : List String :=
  ["freq_ghz", "max_passes", "min_passes", "percent_error", "save_fields",
   "enabled", "min_converged_passes", "percent_refinement",
   "auto_increase_solution_order", "solution_order", "solver_type"]

/-- Required type of each allow-listed prep_q3d_setup key, stated from the
claim: freq_ghz and percent_error take floats; the pass/refinement counts
take ints; the three flags take bools; solution_order takes a str among
High, Normal, Higher, Highest; solver_type takes a str. -/
def q3dRequiredTypeOk (key : String) (value : PyVal) : Bool :=
  if key = "freq_ghz" ∨ key = "percent_error" then value.isFloat
  else if key = "max_passes" ∨ key = "min_passes" ∨
      key = "min_converged_passes" ∨ key = "percent_refinement" then value.isInt
  else if key = "save_fields" ∨ key = "enabled" ∨
      key = "auto_increase_solution_order" then value.isBool
  else if key = "solution_order" then
    value.isStr && value.inStrs ["High", "Normal", "Higher", "Highest"]
  else if key = "solver_type" then value.isStr
  else false

/-- An entry the prep_q3d_setup loop steps over without returning: the
'name' key, or an allow-listed key whose value is None or of its required
type. -/
def q3dEntryPasses (key : String) (value : PyVal) : Bool :=
  decide (key = "name") ||
    (decide (key ∈ q3dSetupKeys) && (value.isNone || q3dRequiredTypeOk key value))

theorem q3dLoop_cons (key : String) (value : PyVal)
    (rest : List (String × PyVal)) :
    q3dLoop ((key, value) :: rest) =
      if q3dEntryPasses key value then q3dLoop rest
      else if key ∈ q3dSetupKeys then 1 else 2 := by
  by_cases h0 : key = "name"
  · simp [q3dLoop, q3dEntryPasses, h0]
  by_cases h1 : key = "freq_ghz"
  · subst h1
    cases value <;>
      simp [q3dLoop, q3dEntryPasses, q3dSetupKeys, q3dRequiredTypeOk,
        PyVal.isFloat, PyVal.isInt, PyVal.isBool, PyVal.isStr, PyVal.isNone,
        PyVal.inStrs]
  by_cases h2 : key = "max_passes"
  · subst h2
    cases value <;>
      simp [q3dLoop, q3dEntryPasses, q3dSetupKeys, q3dRequiredTypeOk,
        PyVal.isFloat, PyVal.isInt, PyVal.isBool, PyVal.isStr, PyVal.isNone,
        PyVal.inStrs]
  by_cases h3 : key = "min_passes"
  · subst h3
    cases value <;>
      simp [q3dLoop, q3dEntryPasses, q3dSetupKeys, q3dRequiredTypeOk,
        PyVal.isFloat, PyVal.isInt, PyVal.isBool, PyVal.isStr, PyVal.isNone,
        PyVal.inStrs]
  by_cases h4 : key = "percent_error"
  · subst h4
    cases value <;>
      simp [q3dLoop, q3dEntryPasses, q3dSetupKeys, q3dRequiredTypeOk,
        PyVal.isFloat, PyVal.isInt, PyVal.isBool, PyVal.isStr, PyVal.isNone,
        PyVal.inStrs]
  by_cases h5 : key = "save_fields"
  · subst h5
    cases value <;>
      simp [q3dLoop, q3dEntryPasses, q3dSetupKeys, q3dRequiredTypeOk,
        PyVal.isFloat, PyVal.isInt, PyVal.isBool, PyVal.isStr, PyVal.isNone,
        PyVal.inStrs]
  by_cases h6 : key = "enabled"
  · subst h6
    cases value <;>
      simp [q3dLoop, q3dEntryPasses, q3dSetupKeys, q3dRequiredTypeOk,
        PyVal.isFloat, PyVal.isInt, PyVal.isBool, PyVal.isStr, PyVal.isNone,
        PyVal.inStrs]
  by_cases h7 : key = "min_converged_passes"
  · subst h7
    cases value <;>
      simp [q3dLoop, q3dEntryPasses, q3dSetupKeys, q3dRequiredTypeOk,
        PyVal.isFloat, PyVal.isInt, PyVal.isBool, PyVal.isStr, PyVal.isNone,
        PyVal.inStrs]
  by_cases h8 : key = "percent_refinement"
  · subst h8
    cases value <;>
      simp [q3dLoop, q3dEntryPasses, q3dSetupKeys, q3dRequiredTypeOk,
        PyVal.isFloat, PyVal.isInt, PyVal.isBool, PyVal.isStr, PyVal.isNone,
        PyVal.inStrs]
  by_cases h9 : key = "auto_increase_solution_order"
  · subst h9
    cases value <;>
      simp [q3dLoop, q3dEntryPasses, q3dSetupKeys, q3dRequiredTypeOk,
        PyVal.isFloat, PyVal.isInt, PyVal.isBool, PyVal.isStr, PyVal.isNone,
        PyVal.inStrs]
  by_cases h10 : key = "solution_order"
  · subst h10
    cases value <;>
      simp [q3dLoop, q3dEntryPasses, q3dSetupKeys, q3dRequiredTypeOk,
        PyVal.isFloat, PyVal.isInt, PyVal.isBool, PyVal.isStr, PyVal.isNone,
        PyVal.inStrs]
  by_cases h11 : key = "solver_type"
  · subst h11
    cases value <;>
      simp [q3dLoop, q3dEntryPasses, q3dSetupKeys, q3dRequiredTypeOk,
        PyVal.isFloat, PyVal.isInt, PyVal.isBool, PyVal.isStr, PyVal.isNone,
        PyVal.inStrs]
  simp [q3dLoop, q3dEntryPasses, q3dSetupKeys,
    h0, h1, h2, h3, h4, h5, h6, h7, h8, h9, h10, h11]

theorem q3dLoop_eq_zero (l : List (String × PyVal))
    (h : ∀ p ∈ l, q3dEntryPasses p.1 p.2 = true) : q3dLoop l = 0 := by
  induction l with
  | nil => rfl
  | cons p rest ih =>
      obtain ⟨key, value⟩ := p
      rw [q3dLoop_cons]
      rw [if_pos (by simpa using h (key, value) (List.mem_cons_self _ _))]
      exact ih fun q hq => h q (List.mem_cons_of_mem _ hq)

theorem q3dLoop_first_fail (pre : List (String × PyVal)) :
    ∀ (key : String) (value : PyVal) (suf : List (String × PyVal)),
      (∀ p ∈ pre, q3dEntryPasses p.1 p.2 = true) →
      q3dEntryPasses key value = false →
      q3dLoop (pre ++ (key, value) :: suf)
        = if key ∈ q3dSetupKeys then 1 else 2 := by
  induction pre with
  | nil =>
      intro key value suf _ hfail
      rw [List.nil_append, q3dLoop_cons, if_neg (by simp [hfail])]
  | cons p ps ih =>
      intro key value suf hpre hfail
      obtain ⟨k0, v0⟩ := p
      rw [List.cons_append, q3dLoop_cons]
      rw [if_pos (by simpa using hpre (k0, v0) (List.mem_cons_self _ _))]
      exact ih key value suf
        (fun q hq => hpre q (List.mem_cons_of_mem _ hq)) hfail

theorem alookup_pySet_self {κ β : Type} [DecidableEq κ]
    (l : List (κ × β)) (k : κ) (v : β) : alookup (pySet l k v) k = some v := by
  induction l with
  | nil => simp [pySet, alookup]
  | cons p rest ih =>
      obtain ⟨k0, v0⟩ := p
      by_cases h : k0 = k
      · simp [pySet, h, alookup]
      · simp [pySet, h, alookup, ih]

theorem alookup_pySet_ne {κ β : Type} [DecidableEq κ]
    (l : List (κ × β)) (k k2 : κ) (v : β) (h : k2 ≠ k) :
    alookup (pySet l k v) k2 = alookup l k2 := by
  induction l with
  | nil => simp [pySet, alookup, Ne.symm h]
  | cons p rest ih =>
      obtain ⟨k0, v0⟩ := p
      by_cases h0 : k0 = k
      · subst h0
        simp [pySet, alookup, Ne.symm h]
      · simp only [pySet, if_neg h0, alookup]
        by_cases h2 : k0 = k2
        · simp [h2]
        · simp [h2, ih]

/-- C2: prep_q3d_setup walks the (name-overwritten) setup_args entries in
order; at the first entry other than 'name' it returns 1 when the key is
allow-listed but the value is neither None nor of the key's required type,
and 2 when the key is not allow-listed; when every entry passes it returns
0 after adding and activating a setup named "Sweep_q3d_setup". -/
theorem prep_q3d_setup_classified (setup_args : List (String × PyVal)) :
    ((∀ p ∈ pySet setup_args "name" (PyVal.str "Sweep_q3d_setup"),
        q3dEntryPasses p.1 p.2 = true) →
      (prep_q3d_setup setup_args).status = 0 ∧
      (prep_q3d_setup setup_args).added_setup = some "Sweep_q3d_setup" ∧
      (prep_q3d_setup setup_args).activated_setup = some "Sweep_q3d_setup") ∧
    (∀ (pre : List (String × PyVal)) (key : String) (value : PyVal)
        (suf : List (String × PyVal)),
      pySet setup_args "name" (PyVal.str "Sweep_q3d_setup")
        = pre ++ (key, value) :: suf →
      (∀ p ∈ pre, q3dEntryPasses p.1 p.2 = true) →
      key ≠ "name" → key ∈ q3dSetupKeys →
      (value.isNone || q3dRequiredTypeOk key value) = false →
      (prep_q3d_setup setup_args).status = 1) ∧
    (∀ (pre : List (String × PyVal)) (key : String) (value : PyVal)
        (suf : List (String × PyVal)),
      pySet setup_args "name" (PyVal.str "Sweep_q3d_setup")
        = pre ++ (key, value) :: suf →
      (∀ p ∈ pre, q3dEntryPasses p.1 p.2 = true) →
      key ≠ "name" → key ∉ q3dSetupKeys →
      (prep_q3d_setup setup_args).status = 2) := by
  refine ⟨?_, ?_, ?_⟩
  · intro h
    have hst : q3dLoop (pySet setup_args "name" (PyVal.str "Sweep_q3d_setup")) = 0 :=
      q3dLoop_eq_zero _ h
    simp [prep_q3d_setup, hst]
  · intro pre key value suf hdecomp hpre hname hmem hty
    have hfail : q3dEntryPasses key value = false := by
      simp [q3dEntryPasses, hname, hmem, hty]
    have hst := q3dLoop_first_fail pre key value suf hpre hfail
    rw [if_pos hmem] at hst
    simp [prep_q3d_setup, hdecomp, hst]
  · intro pre key value suf hdecomp hpre hname hmem
    have hfail : q3dEntryPasses key value = false := by
      simp [q3dEntryPasses, hname, hmem]
    have hst := q3dLoop_first_fail pre key value suf hpre hfail
    rw [if_neg hmem] at hst
    simp [prep_q3d_setup, hdecomp, hst]

/-- Witness for C2: a setup_args whose first entry has an allow-listed key
of the wrong type yields status 1; the classification is applied at the
decomposition placing that entry first. -/
theorem prep_q3d_setup_classified_witness :
    (prep_q3d_setup [("freq_ghz", PyVal.str "fast")]).status = 1 :=
  (prep_q3d_setup_classified [("freq_ghz", PyVal.str "fast")]).2.1
    [] "freq_ghz" (PyVal.str "fast")
    [("name", PyVal.str "Sweep_q3d_setup")]
    (by decide) (by decide) (by decide) (by decide) (by decide)

/-- C9: both prep methods mutate state before validating anything: on every
call, whatever the status, the returned setup_args has its 'name' key
overwritten with the fixed sweep name and delete_setup has been invoked
for that same name. -/
theorem prep_setup_mutates_before_validation
    (setup_args em_args : List (String × PyVal)) :
    alookup (prep_q3d_setup setup_args).setup_args "name"
      = some (PyVal.str "Sweep_q3d_setup") ∧
    (prep_q3d_setup setup_args).deleted_setup = some "Sweep_q3d_setup" ∧
    alookup (prep_eigenmode_setup em_args).setup_args "name"
      = some (PyVal.str "Sweep_em_setup") ∧
    (prep_eigenmode_setup em_args).deleted_setup = some "Sweep_em_setup" :=
  ⟨alookup_pySet_self setup_args "name" _, rfl,
   alookup_pySet_self em_args "name" _, rfl⟩

/-- C10: the type checks of prep_q3d_setup are asymmetric across Python's
numeric tower: a bool passes every int-typed key (bool subclasses int) and
the call returns 0, while an int fails the float-typed keys and yields
status 1. -/
theorem prep_q3d_numeric_tower_asymmetry :
    (∀ key ∈ (["max_passes", "min_passes", "min_converged_passes",
        "percent_refinement"] : List String), ∀ b : Bool,
      (prep_q3d_setup [(key, PyVal.bool b)]).status = 0) ∧
    (∀ key ∈ (["freq_ghz", "percent_error"] : List String), ∀ n : Int,
      (prep_q3d_setup [(key, PyVal.int n)]).status = 1) := by
  constructor
  · intro key hk b
    fin_cases hk <;> cases b <;> decide
  · intro key hk n
    fin_cases hk <;>
      simp [prep_q3d_setup, pySet, q3dLoop, PyVal.isFloat, PyVal.isNone]

/-- Witness for C10: a concrete bool accepted for an int key and a concrete
int rejected for a float key. -/
theorem prep_q3d_numeric_tower_asymmetry_witness :
    (prep_q3d_setup [("max_passes", PyVal.bool true)]).status = 0 ∧
    (prep_q3d_setup [("freq_ghz", PyVal.int 5)]).status = 1 :=
  ⟨prep_q3d_numeric_tower_asymmetry.1 "max_passes" (by decide) true,
   prep_q3d_numeric_tower_asymmetry.2 "freq_ghz" (by decide) 5⟩

/-- Value in the QQ3DRenderer default-options dictionary: a string, or a
nested dictionary of string options. -/
inductive QOptVal where
  | s : String → QOptVal
  | d : List (String × String) → QOptVal
deriving DecidableEq

/-- Class attribute `QQ3DRenderer.name` (q3d_renderer.py). -/
def QQ3DRenderer_name : String := "q3d"

/-- Class attribute `QQ3DRenderer.q3d_options` (q3d_renderer.py),
transcribed entry for entry in source order. -/
def q3d_options : List (String × QOptVal) :=
  [("material_type", QOptVal.s "pec"),
   ("material_thickness", QOptVal.s "200nm"),
   ("add_setup", QOptVal.d
      [("freq_ghz", "5.0"),
       ("name", "Setup"),
       ("save_fields", "False"),
       ("enabled", "True"),
       ("max_passes", "15"),
       ("min_passes", "2"),
       ("min_converged_passes", "2"),
       ("percent_error", "0.5"),
       ("percent_refinement", "30"),
       ("auto_increase_solution_order", "True"),
       ("solution_order", "High"),
       ("solver_type", "Iterative")]),
   ("get_capacitance_matrix", QOptVal.d
      [("variation", ""),
       ("solution_kind", "AdaptivePass"),
       ("pass_number", "3")])]

/-- Lookup of one key inside a nested group of q3d_options, as the unit
test does with `options['add_setup']['freq_ghz']`. -/
def q3dOptionsSub (group key : String) : Option String :=
  match alookup q3d_options group with
  | some (QOptVal.d entries) => alookup entries key
  | _ => Option.none

/-- Number of entries of a nested group of q3d_options, as the unit test
measures with `len(options['add_setup'])`. -/
def q3dOptionsSubLen (group : String) : Nat :=
  match alookup q3d_options group with
  | some (QOptVal.d entries) => entries.length
  | _ => 0

/-- C7: the QQ3DRenderer defaults are exactly those asserted by
TestRenderers.test_renderer_qq3d_render_options: renderer name 'q3d', 4
top-level keys, the 12 add_setup entries and the 3
get_capacitance_matrix entries with their expected values. -/
theorem q3d_default_options_match_tests :
    QQ3DRenderer_name = "q3d" ∧
    q3d_options.length = 4 ∧
    q3dOptionsSubLen "add_setup" = 12 ∧
    q3dOptionsSubLen "get_capacitance_matrix" = 3 ∧
    alookup q3d_options "material_type" = some (QOptVal.s "pec") ∧
    alookup q3d_options "material_thickness" = some (QOptVal.s "200nm") ∧
    q3dOptionsSub "add_setup" "freq_ghz" = some "5.0" ∧
    q3dOptionsSub "add_setup" "name" = some "Setup" ∧
    q3dOptionsSub "add_setup" "save_fields" = some "False" ∧
    q3dOptionsSub "add_setup" "enabled" = some "True" ∧
    q3dOptionsSub "add_setup" "max_passes" = some "15" ∧
    q3dOptionsSub "add_setup" "min_passes" = some "2" ∧
    q3dOptionsSub "add_setup" "min_converged_passes" = some "2" ∧
    q3dOptionsSub "add_setup" "percent_error" = some "0.5" ∧
    q3dOptionsSub "add_setup" "percent_refinement" = some "30" ∧
    q3dOptionsSub "add_setup" "auto_increase_solution_order" = some "True" ∧
    q3dOptionsSub "add_setup" "solution_order" = some "High" ∧
    q3dOptionsSub "add_setup" "solver_type" = some "Iterative" ∧
    q3dOptionsSub "get_capacitance_matrix" "variation" = some "" ∧
    q3dOptionsSub "get_capacitance_matrix" "solution_kind"
      = some "AdaptivePass" ∧
    q3dOptionsSub "get_capacitance_matrix" "pass_number" = some "3" := by
  decide

/-- Exception sites of Metal_cpw_connect.check_connector_name, in source
order: the two explicit `raise Exception` statements and the two
`assert`s. -/
inductive ConnectorErr where
  | missing_connector1
  | missing_connector2
  | assert_connector1
  | assert_connector2
deriving DecidableEq

/-- Metal_cpw_connect.check_connector_name, with `design.connectors`
modelled by its list of keys and Python `is` on these interned option
strings modelled as string equality; returns the first exception raised,
or none.  Note that the second emptiness test re-checks
`options.connector1` — not connector2 — against the empty string, exactly
as the source does. -/
def check_connector_name (connectors : List String)
    (connector1 connector2 : String) : Option ConnectorErr :=
  if connector1 = "" ∨ connector1 = "[INPUT NAME HERE]" then
    some ConnectorErr.missing_connector1
  else if connector1 = "" ∨ connector2 = "[INPUT NAME HERE]" then
    some ConnectorErr.missing_connector2
  else if connector1 ∉ connectors then some ConnectorErr.assert_connector1
  else if connector2 ∉ connectors then some ConnectorErr.assert_connector2
  else Option.none

/-- C5 (code bug): because the second emptiness check re-tests connector1
instead of connector2, an empty connector2 is never caught by the
dedicated raise; when the empty string happens to be a key of
design.connectors the membership assertion passes as well and construction
raises nothing at all, against the claim.  In the common case where '' is
not a connectors key, the failure is caught only by the connector2
membership assertion (second conjunct). -/
theorem check_connector_name_empty_connector2 :
    check_connector_name ["", "a"] "a" "" = Option.none ∧
    check_connector_name ["a"] "a" ""
      = some ConnectorErr.assert_connector2 := by
  decide

/-- Planar point, as the 2-entry numpy coordinate arrays used by
Metal_cpw_connect. -/
abbrev Point : Type := ℚ × ℚ

/-- Componentwise numpy addition of two points. -/
def pAdd (a b : Point) : Point := (a.1 + b.1, a.2 + b.2)

/-- Numpy scaling of a point by a scalar. -/
def pScale (c : ℚ) (p : Point) : Point := (c * p.1, c * p.2)

/-- One connector record from design.connectors: its middle point and its
outward normal. -/
structure Connector where
  middle : Point
  normal : Point

/-- Shapely buffer cap style (flat is CAP_STYLE.flat). -/
inductive CapStyle where
  | round
  | flat
  | square
deriving DecidableEq

/-- Shapely buffer join style (mitre is JOIN_STYLE.mitre). -/
inductive JoinStyle where
  | round
  | mitre
  | bevel
deriving DecidableEq

/-- Symbolic shapely geometry: the line string built from the meander
points, and buffer applications around it.  The buffer computation itself
lives in the external shapely library, so it is kept symbolic. -/
inductive Geom where
  | lineString : List Point → Geom
  | buffer : Geom → ℚ → CapStyle → JoinStyle → Geom
deriving DecidableEq

/-- Outputs of Metal_cpw_connect.make: the meander control points, the
cpw_line geometry and the two buffered polygons stored in components. -/
structure MakeResult where
  points_meander : List Point
  cpw_line : Geom
  trace_center : Geom
  trace_gap : Geom
deriving DecidableEq

/-- Metal_cpw_connect.make, translated statement for statement.  The two
leadin distances and the cpw width/gap arrive already parsed to numbers
(design.get_option_values does the unit parsing externally), TRUE_STR is
the true-string list from toolbox_metal.parsing, and meander_between is
the external meander routine, passed as an oracle. -/
def cpw_make (c1 c2 : Connector)
    (connector1_leadin_dist connector2_leadin_dist : ℚ)
    (do_meander : String) (TRUE_STR : List String)
    (meander_between : List Point → List Point)
    (cpw_width cpw_gap : ℚ) : MakeResult :=
  let points0 : List Point :=
    [c1.middle,
     pAdd c1.middle (pScale connector1_leadin_dist c1.normal),
     pAdd c2.middle (pScale connector2_leadin_dist c2.normal),
     c2.middle]
  let points1 :=
    if connector2_leadin_dist < 0 then points0.dropLast else points0
  let points_meander :=
    if do_meander.toLower ∈ TRUE_STR then meander_between points1 else points1
  let cpw_line := Geom.lineString points_meander
  let trace_center :=
    Geom.buffer cpw_line (cpw_width / 2) CapStyle.flat JoinStyle.mitre
  ⟨points_meander, cpw_line, trace_center,
   Geom.buffer trace_center cpw_gap CapStyle.flat JoinStyle.mitre⟩

/-- Specification-side reading of make, phrased from the claim: the
control path is the four listed points with the final c2.middle dropped
exactly when connector2's leadin distance is negative; the path is
meandered exactly when do_meander lowercased is a true-string;
trace_center buffers the path line by half the trace width with flat caps
and mitre joins, and trace_gap buffers trace_center by the gap width. -/
def cpw_make_spec (c1 c2 : Connector)
    (connector1_leadin_dist connector2_leadin_dist : ℚ)
    (do_meander : String) (TRUE_STR : List String)
    (meander_between : List Point → List Point)
    (cpw_width cpw_gap : ℚ) : MakeResult :=
  let controlPath : List Point :=
    if connector2_leadin_dist < 0 then
      [c1.middle,
       pAdd c1.middle (pScale connector1_leadin_dist c1.normal),
       pAdd c2.middle (pScale connector2_leadin_dist c2.normal)]
    else
      [c1.middle,
       pAdd c1.middle (pScale connector1_leadin_dist c1.normal),
       pAdd c2.middle (pScale connector2_leadin_dist c2.normal),
       c2.middle]
  let path :=
    if do_meander.toLower ∈ TRUE_STR then meander_between controlPath
    else controlPath
  let center :=
    Geom.buffer (Geom.lineString path) (cpw_width / 2)
      CapStyle.flat JoinStyle.mitre
  ⟨path, Geom.lineString path, center,
   Geom.buffer center cpw_gap CapStyle.flat JoinStyle.mitre⟩

/-- C6: Metal_cpw_connect.make agrees with the claim's description of it,
for every pair of connectors, every leadin distance, every do_meander
string and true-string list, every external meander routine, and every
trace width and gap. -/
theorem cpw_make_matches_spec (c1 c2 : Connector)
    (connector1_leadin_dist connector2_leadin_dist : ℚ)
    (do_meander : String) (TRUE_STR : List String)
    (meander_between : List Point → List Point)
    (cpw_width cpw_gap : ℚ) :
    cpw_make c1 c2 connector1_leadin_dist connector2_leadin_dist
        do_meander TRUE_STR meander_between cpw_width cpw_gap
      = cpw_make_spec c1 c2 connector1_leadin_dist connector2_leadin_dist
        do_meander TRUE_STR meander_between cpw_width cpw_gap := by
  unfold cpw_make cpw_make_spec
  by_cases h : connector2_leadin_dist < 0 <;> simp [h, List.dropLast]

/-- One design/renderer call recorded while a sweep method runs.  Calls
whose results feed back into the sweep are additionally driven by oracle
functions; the trace records that, and in which order, the calls were
made. -/
inductive SweepAction where
  | connect_ansys
  | activate_design : String → SweepAction
  | clean_design
  | delete_setup : String → SweepAction
  | add_setup : String → SweepAction
  | activate_setup : String → SweepAction
  | set_option : String → PyVal → SweepAction
  | rebuild
  | render : List String → List String → SweepAction
  | analyze
  | extract
  | disconnect_ansys
deriving DecidableEq

/-- Per-value record accumulated by
sweep_one_option_get_capacitance_matrix: the swept option's short name
and the capacitance matrix extracted for that value. -/
structure SweepRecord (α : Type) where
  option_name : String
  capacitance : α
deriving DecidableEq

/-- Per-value record accumulated by
sweep_one_option_get_eigenmode_solution_data. -/
structure EigRecord where
  option_name : String
  frequency : List ℚ
  kappa_over_2pis : Option (List ℚ)
  quality_factor : Option (List ℚ)
deriving DecidableEq

/-- Sweeping.get_quality_factor: None when kappa_over_2pis is None; the
elementwise quotients freqs/kappa when the lengths agree; None (with a
warning) otherwise. -/
def get_quality_factor (freqs : List ℚ) (kappa_over_2pis : Option (List ℚ)) :
    Option (List ℚ) :=
  match kappa_over_2pis with
  | Option.none => Option.none
  | some ks =>
      if freqs.length = ks.length then
        some (List.zipWith (fun ff kk => ff / kk) freqs ks)
      else Option.none

/-- The clean-the-design decision at the end of one sweep iteration:
executed only when get_all_object_names returned a non-empty list (the
oracle `objs`), and then on every iteration except the last when
leave_last_design holds. -/
def sweepCleanTrace (objs : Nat → Bool) (leave_last : Bool)
    (len_sweep index : Nat) : List SweepAction :=
  if objs index then
    if index = len_sweep ∧ ¬leave_last then [SweepAction.clean_design]
    else if index ≠ len_sweep then [SweepAction.clean_design]
    else []
  else []

/-- The per-value loop shared verbatim by the two sweep methods: check the
leaf key is present in the mapping reached by the option-path prefix, set
it to the swept value, rebuild, render, analyze, extract, store the
per-value record built by `mk` under the swept value, and possibly clean
the design; on a missing leaf key return status 5 at once.  After the
last value the method disconnects and reports status 0. -/
def sweepLoop {ρ : Type} (mk : PyVal → ρ) (objs : Nat → Bool)
    (last_key : String) (selection open_pins : List String)
    (leave_last : Bool) (len_sweep : Nat) :
    OptDict → Nat → List PyVal → List (PyVal × ρ) →
    List (PyVal × ρ) × Nat × List SweepAction
  | _, _, [], all_sweep => (all_sweep, 0, [SweepAction.disconnect_ansys])
  | a_value, index, item :: rest, all_sweep =>
      if a_value.hasKey last_key then
        let r := sweepLoop mk objs last_key selection open_pins leave_last
          len_sweep (a_value.setKey last_key (OptDict.leaf item)) (index + 1)
          rest (pySet all_sweep item (mk item))
        (r.1, r.2.1,
          SweepAction.set_option last_key item :: SweepAction.rebuild ::
            SweepAction.render selection open_pins :: SweepAction.analyze ::
            SweepAction.extract ::
            (sweepCleanTrace objs leave_last len_sweep index ++ r.2.2))
      else (all_sweep, 5, [])

/-- The sweep_values record of one capacitance iteration: the leaf option
name and the matrix (oracle `cap`) extracted for the swept value. -/
def mkCapRecord {α : Type} (last_key : String) (cap : PyVal → α)
    (item : PyVal) : SweepRecord α :=
  ⟨last_key, cap item⟩

/-- The sweep_values record of one eigenmode iteration: the leaf option
name, the frequencies and kappas (oracle `eig`) for the swept value, and
the derived quality factor. -/
def mkEigRecord (last_key : String) (eig : PyVal → List ℚ × Option (List ℚ))
    (item : PyVal) : EigRecord :=
  ⟨last_key, (eig item).1, (eig item).2,
   get_quality_factor (eig item).1 (eig item).2⟩

/-- Sweeping.sweep_one_option_get_capacitance_matrix.  The external
capacitance extraction is the oracle `cap`, and the emptiness of
get_all_object_names at each iteration is the oracle `objs`; the first
result component is all_sweep, the second the status code, the third the
recorded call trace. -/
def sweep_one_option_get_capacitance_matrix {α : Type} (cap : PyVal → α)
    (objs : Nat → Bool) (components : List (String × OptDict))
    (qcomp_name option_name : String) (option_sweep : List PyVal)
    (qcomp_render endcaps_render : List String)
    (setup_args : List (String × PyVal)) (leave_last_design : Bool)
    (design_name : String) :
    List (PyVal × SweepRecord α) × Nat × List SweepAction :=
  let checked :=
    error_check_sweep_input components qcomp_name option_name option_sweep
  if checked.2.2 ≠ 0 then ([], checked.2.2, [])
  else
    let option_path := checked.1.getD []
    let a_value := (checked.2.1).getD (OptDict.node [])
    let prep := prep_q3d_setup setup_args
    let preTrace : List SweepAction :=
      [SweepAction.connect_ansys, SweepAction.activate_design design_name,
       SweepAction.clean_design, SweepAction.delete_setup "Sweep_q3d_setup"]
    if prep.status ≠ 0 then ([], 8, preTrace)
    else
      let r := sweepLoop (mkCapRecord (option_path.getLastD "") cap) objs
        (option_path.getLastD "") qcomp_render endcaps_render
        leave_last_design (option_sweep.length - 1) a_value 0 option_sweep []
      (r.1, r.2.1,
        preTrace ++ [SweepAction.add_setup "Sweep_q3d_setup",
          SweepAction.activate_setup "Sweep_q3d_setup"] ++ r.2.2)

/-- Sweeping.sweep_one_option_get_eigenmode_solution_data.  The external
eigenmode solution data is the oracle `eig` and the emptiness of
get_all_object_names is the oracle `objs`. -/
def sweep_one_option_get_eigenmode_solution_data
    (eig : PyVal → List ℚ × Option (List ℚ)) (objs : Nat → Bool)
    (components : List (String × OptDict))
    (qcomp_name option_name : String) (option_sweep : List PyVal)
    (qcomp_render endcaps_render : List String)
    (setup_args : List (String × PyVal)) (leave_last_design : Bool)
    (design_name : String) :
    List (PyVal × EigRecord) × Nat × List SweepAction :=
  let checked :=
    error_check_sweep_input components qcomp_name option_name option_sweep
  if checked.2.2 ≠ 0 then ([], checked.2.2, [])
  else
    let option_path := checked.1.getD []
    let a_value := (checked.2.1).getD (OptDict.node [])
    let prep := prep_eigenmode_setup setup_args
    let preTrace : List SweepAction :=
      [SweepAction.connect_ansys, SweepAction.activate_design design_name,
       SweepAction.clean_design, SweepAction.delete_setup "Sweep_em_setup"]
    if prep.status ≠ 0 then ([], 8, preTrace)
    else
      let r := sweepLoop (mkEigRecord (option_path.getLastD "") eig) objs
        (option_path.getLastD "") qcomp_render endcaps_render
        leave_last_design (option_sweep.length - 1) a_value 0 option_sweep []
      (r.1, r.2.1,
        preTrace ++ [SweepAction.add_setup "Sweep_em_setup",
          SweepAction.activate_setup "Sweep_em_setup"] ++ r.2.2)

theorem hasKey_setKey_self (d : OptDict) (k : String) (v : OptDict)
    (h : d.hasKey k = true) : (d.setKey k v).hasKey k = true := by
  cases d with
  | leaf w => simp [OptDict.hasKey, OptDict.get?] at h
  | node entries =>
      simp [OptDict.setKey, OptDict.hasKey, OptDict.get?, alookup_pySet_self]

theorem sweepLoop_status_of_hasKey {ρ : Type} (mk : PyVal → ρ)
    (objs : Nat → Bool) (last_key : String)
    (selection open_pins : List String) (leave_last : Bool) (len_sweep : Nat)
    (items : List PyVal) :
    ∀ (a : OptDict) (index : Nat) (acc : List (PyVal × ρ)),
      a.hasKey last_key = true →
      (sweepLoop mk objs last_key selection open_pins leave_last len_sweep
        a index items acc).2.1 = 0 := by
  induction items with
  | nil => intro a index acc _; rfl
  | cons item rest ih =>
      intro a index acc h
      simp only [sweepLoop, if_pos h]
      exact ih _ _ _ (hasKey_setKey_self a last_key _ h)

theorem sweepLoop_fail {ρ : Type} (mk : PyVal → ρ) (objs : Nat → Bool)
    (last_key : String) (selection open_pins : List String)
    (leave_last : Bool) (len_sweep : Nat) (items : List PyVal)
    (a : OptDict) (index : Nat) (acc : List (PyVal × ρ))
    (h : (sweepLoop mk objs last_key selection open_pins leave_last len_sweep
      a index items acc).2.1 ≠ 0) :
    (sweepLoop mk objs last_key selection open_pins leave_last len_sweep
      a index items acc).1 = acc ∧
    (sweepLoop mk objs last_key selection open_pins leave_last len_sweep
      a index items acc).2.1 = 5 := by
  cases items with
  | nil => exact absurd rfl h
  | cons item rest =>
      by_cases hk : a.hasKey last_key
      · exact absurd
          (sweepLoop_status_of_hasKey mk objs last_key selection open_pins
            leave_last len_sweep (item :: rest) a index acc hk) h
      · simp [sweepLoop, hk]

/-- The five actions the claim names for each swept value: set the leaf
option, rebuild the design, render the selection, analyze the setup,
extract the solution data. -/
def coreAction : SweepAction → Bool
  | SweepAction.set_option _ _ => true
  | SweepAction.rebuild => true
  | SweepAction.render _ _ => true
  | SweepAction.analyze => true
  | SweepAction.extract => true
  | _ => false

/-- The per-value core action block, in execution order. -/
def coreBlock (last_key : String) (selection open_pins : List String)
    (item : PyVal) : List SweepAction :=
  [SweepAction.set_option last_key item, SweepAction.rebuild,
   SweepAction.render selection open_pins, SweepAction.analyze,
   SweepAction.extract]

theorem sweepCleanTrace_filter (objs : Nat → Bool) (leave_last : Bool)
    (len_sweep index : Nat) :
    (sweepCleanTrace objs leave_last len_sweep index).filter coreAction
      = [] := by
  unfold sweepCleanTrace
  split_ifs <;> rfl

theorem sweepLoop_ok {ρ : Type} (mk : PyVal → ρ) (objs : Nat → Bool)
    (last_key : String) (selection open_pins : List String)
    (leave_last : Bool) (len_sweep : Nat) (items : List PyVal) :
    ∀ (a : OptDict) (index : Nat) (acc : List (PyVal × ρ)),
      (sweepLoop mk objs last_key selection open_pins leave_last len_sweep
        a index items acc).2.1 = 0 →
      (sweepLoop mk objs last_key selection open_pins leave_last len_sweep
          a index items acc).1
        = items.foldl (fun l item => pySet l item (mk item)) acc ∧
      ((sweepLoop mk objs last_key selection open_pins leave_last len_sweep
          a index items acc).2.2).filter coreAction
        = (items.map (coreBlock last_key selection open_pins)).flatten := by
  induction items with
  | nil =>
      intro a index acc _
      constructor
      · rfl
      · rfl
  | cons item rest ih =>
      intro a index acc h
      by_cases hk : a.hasKey last_key
      · simp only [sweepLoop, if_pos hk] at h ⊢
        have hrec := ih (a.setKey last_key (OptDict.leaf item)) (index + 1)
          (pySet acc item (mk item)) h
        refine ⟨hrec.1, ?_⟩
        simp only [List.filter, coreAction, List.filter_append,
          sweepCleanTrace_filter, List.map, List.flatten, List.nil_append]
        simp [hrec.2, coreBlock]
      · simp [sweepLoop, hk] at h

theorem mem_pySet {κ ρ : Type} [DecidableEq κ] (l : List (κ × ρ)) (k : κ)
    (v : ρ) (p : κ × ρ) (h : p ∈ pySet l k v) : p = (k, v) ∨ p ∈ l := by
  induction l with
  | nil =>
      simp [pySet] at h
      exact Or.inl h
  | cons q rest ih =>
      obtain ⟨k0, v0⟩ := q
      by_cases h0 : k0 = k
      · simp only [pySet, if_pos h0] at h
        rcases List.mem_cons.mp h with h1 | h1
        · exact Or.inl h1
        · exact Or.inr (List.mem_cons_of_mem _ h1)
      · simp only [pySet, if_neg h0] at h
        rcases List.mem_cons.mp h with h1 | h1
        · exact Or.inr (by simp [h1])
        · rcases ih h1 with h2 | h2
          · exact Or.inl h2
          · exact Or.inr (List.mem_cons_of_mem _ h2)

theorem mem_foldl_pySet {κ ρ : Type} [DecidableEq κ] (mk : κ → ρ)
    (items : List κ) :
    ∀ (acc : List (κ × ρ)) (p : κ × ρ),
      p ∈ items.foldl (fun l item => pySet l item (mk item)) acc →
      p.1 ∈ items ∨ p ∈ acc := by
  induction items with
  | nil => intro acc p h; exact Or.inr h
  | cons x xs ih =>
      intro acc p h
      rcases ih (pySet acc x (mk x)) p h with h1 | h1
      · exact Or.inl (List.mem_cons_of_mem _ h1)
      · rcases mem_pySet acc x (mk x) p h1 with h2 | h2
        · left
          rw [h2]
          exact List.mem_cons_self _ _
        · exact Or.inr h2

theorem alookup_foldl_pySet_not_mem {κ ρ : Type} [DecidableEq κ]
    (mk : κ → ρ) (items : List κ) :
    ∀ (acc : List (κ × ρ)) (k : κ), (∀ y ∈ items, y ≠ k) →
      alookup (items.foldl (fun l item => pySet l item (mk item)) acc) k
        = alookup acc k := by
  induction items with
  | nil => intro acc k _; rfl
  | cons x xs ih =>
      intro acc k h
      have hx : k ≠ x := fun e => h x (List.mem_cons_self _ _) e.symm
      rw [List.foldl_cons, ih (pySet acc x (mk x)) k
        (fun y hy => h y (List.mem_cons_of_mem _ hy))]
      exact alookup_pySet_ne acc x k (mk x) hx

theorem alookup_foldl_pySet_mem {κ ρ : Type} [DecidableEq κ]
    (mk : κ → ρ) (items : List κ) :
    ∀ (acc : List (κ × ρ)) (k : κ), k ∈ items →
      alookup (items.foldl (fun l item => pySet l item (mk item)) acc) k
        = some (mk k) := by
  induction items with
  | nil => intro acc k h; exact absurd h (List.not_mem_nil k)
  | cons x xs ih =>
      intro acc k h
      by_cases hx : k ∈ xs
      · exact ih _ k hx
      · have hkx : k = x := by
          rcases List.mem_cons.mp h with h1 | h1
          · exact h1
          · exact absurd h1 hx
        subst hkx
        rw [List.foldl_cons,
          alookup_foldl_pySet_not_mem mk xs (pySet acc k (mk k)) k
            (fun y hy e => hx (e ▸ hy))]
        exact alookup_pySet_self acc k (mk k)

theorem error_check_ok_shape (components : List (String × OptDict))
    (qcomp_name option_name : String) (option_sweep : List PyVal)
    (h : (error_check_sweep_input components qcomp_name option_name
      option_sweep).2.2 = 0) :
    (error_check_sweep_input components qcomp_name option_name
      option_sweep).1 = some (pySplit '.' option_name) := by
  by_cases h1 : option_sweep.length = 0
  · simp [error_check_sweep_input, h1] at h
  by_cases h2 : option_name = ""
  · simp [error_check_sweep_input, h1, h2] at h
  cases halo : alookup components qcomp_name with
  | none => simp [error_check_sweep_input, h1, h2, halo] at h
  | some opts => simp [error_check_sweep_input, h1, h2, halo]

/-- C3: whenever sweep_one_option_get_capacitance_matrix returns status 0,
the returned dict holds, for each value of option_sweep, an entry keyed by
that value whose record carries the last segment of the dotted option
path as option_name and the capacitance matrix extracted for that value;
every key of the dict is one of the swept values; and the core call trace
is, for each value in order, set the leaf option, rebuild the design,
render the selected components, analyze the setup, extract the matrix. -/
theorem sweep_capacitance_status_zero_results {α : Type} (cap : PyVal → α)
    (objs : Nat → Bool) (components : List (String × OptDict))
    (qcomp_name option_name : String) (option_sweep : List PyVal)
    (qcomp_render endcaps_render : List String)
    (setup_args : List (String × PyVal)) (leave_last_design : Bool)
    (design_name : String)
    (h : (sweep_one_option_get_capacitance_matrix cap objs components
      qcomp_name option_name option_sweep qcomp_render endcaps_render
      setup_args leave_last_design design_name).2.1 = 0) :
    (∀ item ∈ option_sweep,
      alookup (sweep_one_option_get_capacitance_matrix cap objs components
          qcomp_name option_name option_sweep qcomp_render endcaps_render
          setup_args leave_last_design design_name).1 item
        = some ⟨(pySplit '.' option_name).getLastD "", cap item⟩) ∧
    (∀ p ∈ (sweep_one_option_get_capacitance_matrix cap objs components
        qcomp_name option_name option_sweep qcomp_render endcaps_render
        setup_args leave_last_design design_name).1,
      p.1 ∈ option_sweep) ∧
    ((sweep_one_option_get_capacitance_matrix cap objs components
        qcomp_name option_name option_sweep qcomp_render endcaps_render
        setup_args leave_last_design design_name).2.2).filter coreAction
      = (option_sweep.map
          (coreBlock ((pySplit '.' option_name).getLastD "")
            qcomp_render endcaps_render)).flatten := by
  by_cases hc : (error_check_sweep_input components qcomp_name option_name
      option_sweep).2.2 ≠ 0
  · exfalso
    apply hc
    simp only [sweep_one_option_get_capacitance_matrix] at h
    rw [if_pos hc] at h
    exact h
  have hc0 : (error_check_sweep_input components qcomp_name option_name
      option_sweep).2.2 = 0 := not_not.mp hc
  have hpath := error_check_ok_shape components qcomp_name option_name
    option_sweep hc0
  by_cases hp : (prep_q3d_setup setup_args).status ≠ 0
  · exfalso
    simp only [sweep_one_option_get_capacitance_matrix] at h
    rw [if_neg hc, if_pos hp] at h
    simp at h
  simp only [sweep_one_option_get_capacitance_matrix] at h ⊢
  rw [if_neg hc, if_neg hp] at h ⊢
  rw [hpath] at h ⊢
  simp only [Option.getD_some] at h ⊢
  have hst : (sweepLoop
      (mkCapRecord ((pySplit '.' option_name).getLastD "") cap) objs
      ((pySplit '.' option_name).getLastD "") qcomp_render endcaps_render
      leave_last_design (option_sweep.length - 1)
      ((error_check_sweep_input components qcomp_name option_name
        option_sweep).2.1.getD (OptDict.node [])) 0 option_sweep []).2.1
      = 0 := h
  have hok := sweepLoop_ok
    (mkCapRecord ((pySplit '.' option_name).getLastD "") cap) objs
    ((pySplit '.' option_name).getLastD "") qcomp_render endcaps_render
    leave_last_design (option_sweep.length - 1) option_sweep
    ((error_check_sweep_input components qcomp_name option_name
      option_sweep).2.1.getD (OptDict.node [])) 0 [] hst
  refine ⟨?_, ?_, ?_⟩
  · intro item hitem
    show alookup (sweepLoop _ _ _ _ _ _ _ _ _ _ _).1 item = _
    rw [hok.1]
    exact alookup_foldl_pySet_mem _ option_sweep [] item hitem
  · intro p hp2
    have hp3 : p ∈ (sweepLoop
        (mkCapRecord ((pySplit '.' option_name).getLastD "") cap) objs
        ((pySplit '.' option_name).getLastD "") qcomp_render endcaps_render
        leave_last_design (option_sweep.length - 1)
        ((error_check_sweep_input components qcomp_name option_name
          option_sweep).2.1.getD (OptDict.node [])) 0 option_sweep []).1 := hp2
    rw [hok.1] at hp3
    rcases mem_foldl_pySet _ option_sweep [] p hp3 with h4 | h4
    · exact h4
    · simp at h4
  · show (List.filter coreAction (_ ++ _)) = _
    rw [List.filter_append]
    have hpre : (List.filter coreAction
        ([SweepAction.connect_ansys, SweepAction.activate_design design_name,
          SweepAction.clean_design, SweepAction.delete_setup "Sweep_q3d_setup"]
          ++ [SweepAction.add_setup "Sweep_q3d_setup",
              SweepAction.activate_setup "Sweep_q3d_setup"])) = [] := rfl
    rw [hpre, List.nil_append]
    exact hok.2

/-- Witness for C3: a concrete status-0 capacitance sweep over two values
of a one-segment option path, checking the entry recorded for the second
swept value. -/
theorem sweep_capacitance_status_zero_results_witness :
    alookup (sweep_one_option_get_capacitance_matrix (fun v => v)
        (fun _ => true)
        [("Q1", OptDict.node [("width", OptDict.leaf (PyVal.str "10um"))])]
        "Q1" "width" [PyVal.str "5um", PyVal.str "6um"] ["Q1"] []
        [] true "Sweep_Capacitance").1 (PyVal.str "6um")
      = some ⟨"width", PyVal.str "6um"⟩ := by
  have h := sweep_capacitance_status_zero_results (fun v => v)
    (fun _ => true)
    [("Q1", OptDict.node [("width", OptDict.leaf (PyVal.str "10um"))])]
    "Q1" "width" [PyVal.str "5um", PyVal.str "6um"] ["Q1"] [] [] true
    "Sweep_Capacitance" (by decide)
  exact h.1 (PyVal.str "6um") (by decide)

theorem sweepLoop_status_cases {ρ : Type} (mk : PyVal → ρ)
    (objs : Nat → Bool) (last_key : String)
    (selection open_pins : List String) (leave_last : Bool) (len_sweep : Nat)
    (items : List PyVal) (a : OptDict) (index : Nat)
    (acc : List (PyVal × ρ)) :
    (sweepLoop mk objs last_key selection open_pins leave_last len_sweep
      a index items acc).2.1 = 0 ∨
    (sweepLoop mk objs last_key selection open_pins leave_last len_sweep
      a index items acc).2.1 = 5 := by
  by_cases h : (sweepLoop mk objs last_key selection open_pins leave_last
      len_sweep a index items acc).2.1 = 0
  · exact Or.inl h
  · exact Or.inr (sweepLoop_fail mk objs last_key selection open_pins
      leave_last len_sweep items a index acc h).2

theorem sweepCap_dict_empty_of_ne {α : Type} (cap : PyVal → α)
    (objs : Nat → Bool) (components : List (String × OptDict))
    (qcomp_name option_name : String) (option_sweep : List PyVal)
    (qcomp_render endcaps_render : List String)
    (setup_args : List (String × PyVal)) (leave_last_design : Bool)
    (design_name : String)
    (h : (sweep_one_option_get_capacitance_matrix cap objs components
      qcomp_name option_name option_sweep qcomp_render endcaps_render
      setup_args leave_last_design design_name).2.1 ≠ 0) :
    (sweep_one_option_get_capacitance_matrix cap objs components
      qcomp_name option_name option_sweep qcomp_render endcaps_render
      setup_args leave_last_design design_name).1 = [] := by
  by_cases hc : (error_check_sweep_input components qcomp_name option_name
      option_sweep).2.2 ≠ 0
  · simp only [sweep_one_option_get_capacitance_matrix]
    rw [if_pos hc]
  by_cases hp : (prep_q3d_setup setup_args).status ≠ 0
  · simp only [sweep_one_option_get_capacitance_matrix]
    rw [if_neg hc, if_pos hp]
  simp only [sweep_one_option_get_capacitance_matrix] at h ⊢
  rw [if_neg hc, if_neg hp] at h ⊢
  exact (sweepLoop_fail _ _ _ _ _ _ _ _ _ _ _ h).1

theorem sweepEm_dict_empty_of_ne (eig : PyVal → List ℚ × Option (List ℚ))
    (objs : Nat → Bool) (components : List (String × OptDict))
    (qcomp_name option_name : String) (option_sweep : List PyVal)
    (qcomp_render endcaps_render : List String)
    (setup_args : List (String × PyVal)) (leave_last_design : Bool)
    (design_name : String)
    (h : (sweep_one_option_get_eigenmode_solution_data eig objs components
      qcomp_name option_name option_sweep qcomp_render endcaps_render
      setup_args leave_last_design design_name).2.1 ≠ 0) :
    (sweep_one_option_get_eigenmode_solution_data eig objs components
      qcomp_name option_name option_sweep qcomp_render endcaps_render
      setup_args leave_last_design design_name).1 = [] := by
  by_cases hc : (error_check_sweep_input components qcomp_name option_name
      option_sweep).2.2 ≠ 0
  · simp only [sweep_one_option_get_eigenmode_solution_data]
    rw [if_pos hc]
  by_cases hp : (prep_eigenmode_setup setup_args).status ≠ 0
  · simp only [sweep_one_option_get_eigenmode_solution_data]
    rw [if_neg hc, if_pos hp]
  simp only [sweep_one_option_get_eigenmode_solution_data] at h ⊢
  rw [if_neg hc, if_neg hp] at h ⊢
  exact (sweepLoop_fail _ _ _ _ _ _ _ _ _ _ _ h).1

/-- C4: whenever either sweep method returns a non-zero status code, the
dict returned alongside it is empty: no partial per-value results ever
accompany an error status. -/
theorem sweep_nonzero_status_empty_dict {α : Type} (cap : PyVal → α)
    (eig : PyVal → List ℚ × Option (List ℚ)) (objs objs2 : Nat → Bool)
    (components components2 : List (String × OptDict))
    (qcomp_name qcomp_name2 option_name option_name2 : String)
    (option_sweep option_sweep2 : List PyVal)
    (qcomp_render qcomp_render2 endcaps_render endcaps_render2 : List String)
    (setup_args setup_args2 : List (String × PyVal))
    (leave_last_design leave_last_design2 : Bool)
    (design_name design_name2 : String) :
    ((sweep_one_option_get_capacitance_matrix cap objs components
        qcomp_name option_name option_sweep qcomp_render endcaps_render
        setup_args leave_last_design design_name).2.1 ≠ 0 →
      (sweep_one_option_get_capacitance_matrix cap objs components
        qcomp_name option_name option_sweep qcomp_render endcaps_render
        setup_args leave_last_design design_name).1 = []) ∧
    ((sweep_one_option_get_eigenmode_solution_data eig objs2 components2
        qcomp_name2 option_name2 option_sweep2 qcomp_render2 endcaps_render2
        setup_args2 leave_last_design2 design_name2).2.1 ≠ 0 →
      (sweep_one_option_get_eigenmode_solution_data eig objs2 components2
        qcomp_name2 option_name2 option_sweep2 qcomp_render2 endcaps_render2
        setup_args2 leave_last_design2 design_name2).1 = []) :=
  ⟨sweepCap_dict_empty_of_ne cap objs components qcomp_name option_name
      option_sweep qcomp_render endcaps_render setup_args leave_last_design
      design_name,
   sweepEm_dict_empty_of_ne eig objs2 components2 qcomp_name2 option_name2
      option_sweep2 qcomp_render2 endcaps_render2 setup_args2
      leave_last_design2 design_name2⟩

/-- Witness for C4: both sweep methods called with an empty sweep list
return status 4, and the dict accompanying it is empty. -/
theorem sweep_nonzero_status_empty_dict_witness :
    (sweep_one_option_get_capacitance_matrix (fun v => v) (fun _ => true)
      [] "Q1" "width" [] [] [] [] true "Sweep_Capacitance").1 = [] ∧
    (sweep_one_option_get_eigenmode_solution_data
      (fun _ => ([], Option.none)) (fun _ => true)
      [] "Q1" "width" [] [] [] [] true "Sweep_Eigenmode").1 = [] := by
  have h := sweep_nonzero_status_empty_dict (α := PyVal) (fun v => v)
    (fun _ => ([], Option.none)) (fun _ => true) (fun _ => true)
    [] [] "Q1" "Q1" "width" "width" [] [] [] [] [] [] [] [] true true
    "Sweep_Capacitance" "Sweep_Eigenmode"
  exact ⟨h.1 (by decide), h.2 (by decide)⟩

theorem ecWalk_status (names : List String) :
    ∀ a : OptDict, (ecWalk a names).2 = 0 ∨ (ecWalk a names).2 = 3 := by
  induction names with
  | nil => intro a; exact Or.inl rfl
  | cons k rest ih =>
      intro a
      by_cases hk : a.hasKey k
      · simpa [ecWalk, hk] using ih (option_value a k)
      · simp [ecWalk, hk]

theorem error_check_status_mem (components : List (String × OptDict))
    (qcomp_name option_name : String) (option_sweep : List PyVal) :
    (error_check_sweep_input components qcomp_name option_name
      option_sweep).2.2 ∈ ([0, 1, 2, 3, 4] : List Nat) := by
  by_cases h1 : option_sweep.length = 0
  · simp [error_check_sweep_input, h1]
  by_cases h2 : option_name = ""
  · simp [error_check_sweep_input, h1, h2]
  cases halo : alookup components qcomp_name with
  | none => simp [error_check_sweep_input, h1, h2, halo]
  | some opts =>
      rcases ecWalk_status (pySplit '.' option_name).dropLast opts with h | h <;>
        simp [error_check_sweep_input, h1, h2, halo, h]

theorem status_mem_of_check {n : Nat} (h : n ∈ ([0, 1, 2, 3, 4] : List Nat)) :
    n ∈ ([0, 1, 2, 3, 4, 5, 8] : List Nat) := by
  simp only [List.mem_cons, List.not_mem_nil, or_false] at h
  rcases h with h | h | h | h | h <;> simp [h]

theorem status_mem_of_loop {n : Nat} (h : n = 0 ∨ n = 5) :
    n ∈ ([0, 1, 2, 3, 4, 5, 8] : List Nat) := by
  rcases h with h | h <;> simp [h]

/-- C8: neither sweep method ever reports the documented status codes 6
(project not in app) or 7 (design not in app): for every input and every
oracle behaviour the returned status is one of 0, 1, 2, 3, 4, 5 or 8. -/
theorem sweep_status_never_6_or_7 {α : Type} (cap : PyVal → α)
    (eig : PyVal → List ℚ × Option (List ℚ)) (objs objs2 : Nat → Bool)
    (components components2 : List (String × OptDict))
    (qcomp_name qcomp_name2 option_name option_name2 : String)
    (option_sweep option_sweep2 : List PyVal)
    (qcomp_render qcomp_render2 endcaps_render endcaps_render2 : List String)
    (setup_args setup_args2 : List (String × PyVal))
    (leave_last_design leave_last_design2 : Bool)
    (design_name design_name2 : String) :
    (sweep_one_option_get_capacitance_matrix cap objs components
      qcomp_name option_name option_sweep qcomp_render endcaps_render
      setup_args leave_last_design design_name).2.1
      ∈ ([0, 1, 2, 3, 4, 5, 8] : List Nat) ∧
    (sweep_one_option_get_eigenmode_solution_data eig objs2 components2
      qcomp_name2 option_name2 option_sweep2 qcomp_render2 endcaps_render2
      setup_args2 leave_last_design2 design_name2).2.1
      ∈ ([0, 1, 2, 3, 4, 5, 8] : List Nat) := by
  constructor
  · by_cases hc : (error_check_sweep_input components qcomp_name option_name
        option_sweep).2.2 ≠ 0
    · simp only [sweep_one_option_get_capacitance_matrix]
      rw [if_pos hc]
      exact status_mem_of_check
        (error_check_status_mem components qcomp_name option_name option_sweep)
    · by_cases hp : (prep_q3d_setup setup_args).status ≠ 0
      · simp only [sweep_one_option_get_capacitance_matrix]
        rw [if_neg hc, if_pos hp]
        exact (by decide : (8 : Nat) ∈ ([0, 1, 2, 3, 4, 5, 8] : List Nat))
      · simp only [sweep_one_option_get_capacitance_matrix]
        rw [if_neg hc, if_neg hp]
        exact status_mem_of_loop (sweepLoop_status_cases
          (mkCapRecord (((error_check_sweep_input components qcomp_name
            option_name option_sweep).1.getD []).getLastD "") cap) objs
          (((error_check_sweep_input components qcomp_name option_name
            option_sweep).1.getD []).getLastD "") qcomp_render
          endcaps_render leave_last_design (option_sweep.length - 1)
          option_sweep
          ((error_check_sweep_input components qcomp_name option_name
            option_sweep).2.1.getD (OptDict.node [])) 0 [])
  · by_cases hc : (error_check_sweep_input components2 qcomp_name2
        option_name2 option_sweep2).2.2 ≠ 0
    · simp only [sweep_one_option_get_eigenmode_solution_data]
      rw [if_pos hc]
      exact status_mem_of_check (error_check_status_mem components2
        qcomp_name2 option_name2 option_sweep2)
    · by_cases hp : (prep_eigenmode_setup setup_args2).status ≠ 0
      · simp only [sweep_one_option_get_eigenmode_solution_data]
        rw [if_neg hc, if_pos hp]
        exact (by decide : (8 : Nat) ∈ ([0, 1, 2, 3, 4, 5, 8] : List Nat))
      · simp only [sweep_one_option_get_eigenmode_solution_data]
        rw [if_neg hc, if_neg hp]
        exact status_mem_of_loop (sweepLoop_status_cases
          (mkEigRecord (((error_check_sweep_input components2 qcomp_name2
            option_name2 option_sweep2).1.getD []).getLastD "") eig) objs2
          (((error_check_sweep_input components2 qcomp_name2 option_name2
            option_sweep2).1.getD []).getLastD "") qcomp_render2
          endcaps_render2 leave_last_design2 (option_sweep2.length - 1)
          option_sweep2
          ((error_check_sweep_input components2 qcomp_name2 option_name2
            option_sweep2).2.1.getD (OptDict.node [])) 0 [])
